import Mathlib

/-!
Shallow embedding of the esticli application core (src/app/mod.rs,
src/app/filter.rs, src/app/sort.rs, src/elasticsearch/stats.rs) and proofs
about its state machine.  Rust `f64` quantities (rates, elapsed seconds) are
modelled as `ℚ`; `u64`/`usize` as `Nat`; `HashMap`/`HashSet` as association
lists / lists with set semantics; channels and `Instant` timestamps are passed
explicitly.  Runtime-only handles (the HTTP client, tokio channels, the
terminal/colormap state and the details sub-state) are outside the embedded
state.
-/

namespace EstiCli

/-- Display entity for one resource (models.rs `IndexRate`); `rate_per_sec` is
the smoothed rate shown in the table. -/
structure IndexRate where
  name : String
  doc_count : Nat
  rate_per_sec : ℚ
  size_bytes : Nat
  health : String
deriving Repr, DecidableEq

/-- Raw per-resource counters captured at one poll (models.rs `IndexSnapshot`);
`index_total` is the cumulative write-operation counter. -/
structure IndexSnapshot where
  doc_count : Nat
  index_total : Nat
  size_bytes : Nat
  health : String
deriving Repr, DecidableEq

/-- Cluster-wide health counters (models.rs `ClusterHealth`). -/
structure ClusterHealth where
  cluster_name : String
  status : String
  number_of_nodes : Nat
  number_of_data_nodes : Nat
  active_primary_shards : Nat
  active_shards : Nat
  relocating_shards : Nat
  initializing_shards : Nat
  unassigned_shards : Nat
  active_shards_percent : ℚ
  number_of_pending_tasks : Nat
deriving Repr, DecidableEq

/-- Default-initialised health summary (`ClusterHealth::default()`). -/
def ClusterHealth.default : ClusterHealth :=
  ⟨"", "", 0, 0, 0, 0, 0, 0, 0, 0, 0⟩

/-- Value model of the query-language collaborator (serde_json / jaq `Val`),
only needed as an opaque carrier for serialised items. -/
inductive Json where
  | null : Json
  | bool (b : Bool) : Json
  | num (q : ℚ) : Json
  | str (s : String) : Json
  | arr (l : List Json) : Json
  | obj (l : List (String × Json)) : Json

/-- Serialisation of an `IndexRate` to the value model
(`serde_json::to_value`); total, it cannot fail on this struct. -/
def encodeIndexRate (i : IndexRate) : Json :=
  Json.obj [("name", Json.str i.name), ("doc_count", Json.num i.doc_count),
    ("rate_per_sec", Json.num i.rate_per_sec),
    ("size_bytes", Json.num i.size_bytes), ("health", Json.str i.health)]

/-- Filter state (filter.rs `FilterState`): the raw text of the input widget,
the last compile error, and the cached compiled predicate.  The compiled jaq
filter is modelled as the opaque predicate `J → Bool` it induces ("a match
produces output"); `J` is the collaborator's value type. -/
structure FilterState (J : Type) where
  text : String
  error : Option String
  compiled : Option (J → Bool)

/-- Initial filter state (`FilterState::default()`). -/
def FilterState.default {J : Type} : FilterState J :=
  ⟨"", none, none⟩

/-- filter.rs `FilterState::recompile`, parameterised by the external
query-language compiler (`compile_filter`): empty text clears predicate and
error; a successful compile caches the predicate and clears the error; a
failed compile clears the predicate and stores the error message. -/
def FilterState.recompile {J : Type}
    (compile : String → Except String (J → Bool)) (s : FilterState J) :
    FilterState J :=
  if s.text = "" then
    { s with error := none, compiled := none }
  else
    match compile s.text with
    | Except.ok f => { s with error := none, compiled := some f }
    | Except.error e => { s with error := some e, compiled := none }

/-- filter.rs `FilterState::is_match`, parameterised by the serialiser of the
item type (`serde_json::to_value`): with no cached predicate every item
matches; with a predicate, a serialisation failure also yields `true`. -/
def FilterState.is_match {J T : Type} (serialize : T → Except String J)
    (s : FilterState J) (item : T) : Bool :=
  match s.compiled with
  | none => true
  | some f =>
    match serialize item with
    | Except.ok j => f j
    | Except.error _ => true

/-- Serialiser used by the application on `IndexRate` items; total success,
mirroring `serde_json::to_value` on this struct. -/
def serializeIndex (i : IndexRate) : Except String Json :=
  Except.ok (encodeIndexRate i)

/-- filter.rs `FilterState::clear`. -/
def FilterState.clear {J : Type} (s : FilterState J) : FilterState J :=
  { s with text := "", error := none, compiled := none }

/-- Sortable columns (ui/types.rs `SortColumn`). -/
inductive SortColumn where
  | name | docCount | rate | size | health
deriving Repr, DecidableEq

/-- Sort direction (ui/types.rs `SortOrder`). -/
inductive SortOrder where
  | ascending | descending
deriving Repr, DecidableEq

/-- Sort configuration (sort.rs `SortState`); Rust defaults are
`Rate`/`Descending`. -/
structure SortState where
  column : SortColumn
  order : SortOrder
deriving Repr, DecidableEq

/-- Default sort configuration (`SortState::default()`). -/
def SortState.default : SortState := ⟨SortColumn.rate, SortOrder.descending⟩

/-- Three-way comparison on `Nat` (`u64::cmp`). -/
def cmpNat (a b : Nat) : Ordering :=
  if a < b then Ordering.lt else if b < a then Ordering.gt else Ordering.eq

/-- Three-way comparison on `String` (`String::cmp`, lexicographic). -/
def cmpStr (a b : String) : Ordering :=
  if a < b then Ordering.lt else if b < a then Ordering.gt else Ordering.eq

/-- Three-way comparison on `ℚ` (`f64::partial_cmp ... unwrap_or(Equal)`; `ℚ`
is a linear order, so the incomparable case of `f64` does not arise). -/
def cmpRat (a b : ℚ) : Ordering :=
  if a < b then Ordering.lt else if b < a then Ordering.gt else Ordering.eq

/-- Column comparator of sort.rs `SortState::sort`. -/
def columnCmp (c : SortColumn) (a b : IndexRate) : Ordering :=
  match c with
  | SortColumn.name => cmpStr a.name b.name
  | SortColumn.docCount => cmpNat a.doc_count b.doc_count
  | SortColumn.rate => cmpRat a.rate_per_sec b.rate_per_sec
  | SortColumn.size => cmpNat a.size_bytes b.size_bytes
  | SortColumn.health => cmpStr a.health b.health

/-- Full comparator of sort.rs `SortState::sort` (column comparison, reversed
when descending). -/
def SortState.cmp (st : SortState) (a b : IndexRate) : Ordering :=
  match st.order with
  | SortOrder.ascending => columnCmp st.column a b
  | SortOrder.descending => (columnCmp st.column a b).swap

/-- Stable ordered insert for the comparator: keeps an earlier element before
later comparator-equal ones, matching `slice::sort_by` stability. -/
def insertCmp (le : IndexRate → IndexRate → Bool) (x : IndexRate) :
    List IndexRate → List IndexRate
  | [] => [x]
  | y :: ys => if le x y then x :: y :: ys else y :: insertCmp le x ys

/-- Comparator-directed stable sort modelling `slice::sort_by` in sort.rs
`SortState::sort` (no claim depends on the ordering produced, only on when the
sort is invoked). -/
def SortState.sortList (st : SortState) : List IndexRate → List IndexRate
  | [] => []
  | x :: xs => insertCmp (fun a b => (st.cmp a b) ≠ Ordering.gt) x
      (st.sortList xs)

/-- Per-resource smoothing history (field `App::index_rate_history`, a
`HashMap<String, VecDeque<f64>>`), as an association list; the front of each
window is the oldest sample. -/
abbrev RateHistMap := List (String × List ℚ)

/-- Window lookup with the `or_insert_with(VecDeque::new)` default: a missing
resource has an empty window. -/
def histLookup (h : RateHistMap) (n : String) : List ℚ :=
  match h.lookup n with
  | some w => w
  | none => []

/-- Map update (`HashMap` entry insertion/overwrite). -/
def histInsert : RateHistMap → String → List ℚ → RateHistMap
  | [], n, w => [(n, w)]
  | (k, v) :: t, n, w =>
    if k = n then (n, w) :: t else (k, v) :: histInsert t n w

/-- One push into a bounded smoothing window of capacity `N`
(app/mod.rs `update_indices_with_rates` body: `pop_front` when at capacity,
then `push_back`). -/
def pushRate (N : Nat) (w : List ℚ) (x : ℚ) : List ℚ :=
  (if N ≤ w.length then w.tail else w) ++ [x]

/-- Processing of a single index inside `App::update_indices_with_rates`:
push its instantaneous rate into its window and replace `rate_per_sec` by the
arithmetic mean of the window (the `!history.is_empty()` guard in the source
is vacuous: the window was just pushed into). -/
def updateOne (N : Nat) (h : RateHistMap) (i : IndexRate) :
    RateHistMap × IndexRate :=
  let w := pushRate N (histLookup h i.name) i.rate_per_sec
  (histInsert h i.name w,
    { i with rate_per_sec := w.sum / (w.length : ℚ) })

/-- app/mod.rs `App::update_indices_with_rates`: smooth every index of the
fresh poll in order, threading the history map. -/
def update_indices_with_rates (N : Nat) (h : RateHistMap) :
    List IndexRate → RateHistMap × List IndexRate
  | [] => (h, [])
  | i :: rest =>
    let p := updateOne N h i
    let q := update_indices_with_rates N p.1 rest
    (q.1, p.2 :: q.2)

/-- Result delivered by the background fetch task (app/mod.rs `FetchResult`);
the error is carried as its display string. -/
abbrev FetchResult := Except String (List IndexRate × ClusterHealth)

/-- Outcome of `mpsc::Receiver::try_recv` on the fetch mailbox. -/
inductive TryRecv (α : Type) where
  | msg (a : α) : TryRecv α
  | empty : TryRecv α
  | disconnected : TryRecv α

/-- Bound of `rate_history` (app/mod.rs `MAX_HISTORY_POINTS`). -/
def MAX_HISTORY_POINTS : Nat := 60

/-- app/mod.rs `MIN_REFRESH_SECS`. -/
def MIN_REFRESH_SECS : Nat := 1

/-- app/mod.rs `MAX_REFRESH_SECS`. -/
def MAX_REFRESH_SECS : Nat := 60

/-- Application state (app/mod.rs `App`), with timestamps as rational seconds
and durations in seconds.  The HTTP client handle, the tokio channel pair, the
colormap and the details sub-state are runtime/UI-only and are not part of the
embedded state. -/
structure App where
  indices : List IndexRate
  running : Bool
  error : Option String
  loading : Bool
  spinner_frame : Nat
  refresh_secs : Nat
  last_refresh : Option ℚ
  rate_history : List Nat
  fetch_start : Option ℚ
  last_fetch_duration : Option ℚ
  show_graph : Bool
  show_health : Bool
  show_indices : Bool
  show_system_indices : Bool
  paused : Bool
  selected_index : Option Nat
  excluded_indices : List String
  show_help_popup : Bool
  help_scroll : Nat
  rate_samples : Nat
  cluster_health : ClusterHealth
  sort : SortState
  filter : FilterState Json
  index_rate_history : RateHistMap

/-- app/mod.rs `App::new`: field initialisation (minus the client/channel setup);
note `refresh_secs` is stored as supplied while `rate_samples` is clamped to
at least 1. -/
def App.new (refresh_secs : Nat) (rate_samples : Nat) : App where
  indices := []
  running := true
  error := none
  loading := false
  spinner_frame := 0
  refresh_secs := refresh_secs
  last_refresh := none
  rate_history := []
  fetch_start := none
  last_fetch_duration := none
  show_graph := true
  show_health := true
  show_indices := true
  show_system_indices := false
  paused := false
  selected_index := none
  excluded_indices := []
  show_help_popup := false
  help_scroll := 0
  rate_samples := max rate_samples 1
  cluster_health := ClusterHealth.default
  sort := SortState.default
  filter := FilterState.default
  index_rate_history := []

/-- Test for the reserved hidden-namespace prefix
(`name.starts_with('.')`): the first character is a dot. -/
def startsWithDot (n : String) : Bool :=
  match n.data with
  | [] => false
  | c :: _ => c = '.'

/-- View-inclusion test shared (textually duplicated in the source) by
`App::total_cluster_rate` and `App::filtered_indices`: not excluded; system
(dot-prefixed) names only when `show_system_indices`; filter matches. -/
def includeIndex (s : App) (i : IndexRate) : Bool :=
  if s.excluded_indices.contains i.name then false
  else if !s.show_system_indices && startsWithDot i.name then false
  else s.filter.is_match serializeIndex i

/-- app/mod.rs `App::filtered_indices`: the derived view (unsorted here;
`indices` is kept sorted separately by `resort`/poll). -/
def filtered_indices (s : App) : List IndexRate :=
  s.indices.filter (includeIndex s)

/-- app/mod.rs `App::total_cluster_rate`: sum of `rate_per_sec` over the
indices passing the view-inclusion test. -/
def total_cluster_rate (s : App) : ℚ :=
  ((s.indices.filter (includeIndex s)).map (fun i => i.rate_per_sec)).sum

/-- app/mod.rs `App::start_fetch` at time `now`: a no-op returning no spawn
when already loading; otherwise marks loading, records the start time and
spawns the background task (the `Bool` records whether a task was spawned). -/
def start_fetch (now : ℚ) (s : App) : App × Bool :=
  if s.loading then (s, false)
  else ({ s with loading := true, fetch_start := some now }, true)

/-- app/mod.rs `App::poll_fetch_result` at time `now`, with the mailbox
`try_recv` outcome passed explicitly.  A delivered message ends the in-flight
state, stamps `last_refresh` and the fetch duration; success replaces
indices/health (smoothing, sorting, history pruning, total-rate history push),
failure only records the error string; an empty mailbox is a no-op; a
disconnected mailbox ends the in-flight state with a fixed error message. -/
def poll_fetch_result (now : ℚ) (s : App) (r : TryRecv FetchResult) : App :=
  match r with
  | TryRecv.msg result =>
    let dur : Option ℚ :=
      match s.fetch_start with
      | some st => some (now - st)
      | none => s.last_fetch_duration
    let s1 := { s with
      loading := false
      last_refresh := some now
      last_fetch_duration := dur
      fetch_start := none }
    match result with
    | Except.ok (indices, health) =>
      let p := update_indices_with_rates s1.rate_samples
        s1.index_rate_history indices
      let sorted := s1.sort.sortList p.2
      let s2 := { s1 with
        indices := sorted
        cluster_health := health
        error := none
        index_rate_history := p.1.filter
          (fun kv => (sorted.map (fun i => i.name)).contains kv.1) }
      let total : Nat := (total_cluster_rate s2).floor.toNat
      let rh := if MAX_HISTORY_POINTS ≤ s2.rate_history.length
        then s2.rate_history.tail else s2.rate_history
      { s2 with rate_history := rh ++ [total] }
    | Except.error e => { s1 with error := some e }
  | TryRecv.empty => s
  | TryRecv.disconnected =>
    { s with loading := false, error := some "Fetch task disconnected" }

/-- app/mod.rs `App::increase_refresh_rate` (faster refresh = fewer seconds):
decrement, stopping at `MIN_REFRESH_SECS`. -/
def increase_refresh_rate (s : App) : App :=
  if MIN_REFRESH_SECS < s.refresh_secs then
    { s with refresh_secs := s.refresh_secs - 1 }
  else s

/-- app/mod.rs `App::decrease_refresh_rate`: increment, stopping at
`MAX_REFRESH_SECS`. -/
def decrease_refresh_rate (s : App) : App :=
  if s.refresh_secs < MAX_REFRESH_SECS then
    { s with refresh_secs := s.refresh_secs + 1 }
  else s

/-- app/mod.rs `App::toggle_system_indices`: flips the visibility flag and
unconditionally resets the selection to `None` (source comment: "Reset
selection when toggling to avoid out-of-bounds"). -/
def toggle_system_indices (s : App) : App :=
  { s with
    show_system_indices := !s.show_system_indices
    selected_index := none }

/-- app/mod.rs `App::move_selection` with the signed delta as `Int` (the
source uses `i32`; overflow of `current as i32 + delta` is not modelled). -/
def move_selection (s : App) (delta : Int) : App :=
  let count := (filtered_indices s).length
  if count = 0 then { s with selected_index := none }
  else
    let next : Int :=
      match s.selected_index with
      | some current => min (max ((current : Int) + delta) 0)
          ((count - 1 : Nat) : Int)
      | none => if 0 < delta then 0 else ((count - 1 : Nat) : Int)
    { s with selected_index := some next.toNat }

/-- app/mod.rs `App::select_first`. -/
def select_first (s : App) : App :=
  if filtered_indices s ≠ [] then { s with selected_index := some 0 } else s

/-- app/mod.rs `App::select_last`. -/
def select_last (s : App) : App :=
  let count := (filtered_indices s).length
  if 0 < count then { s with selected_index := some (count - 1) } else s

/-- app/mod.rs `App::toggle_exclude_selected`: acts on the item of the derived
view at the selected position; removing an exclusion leaves the selection
alone, adding one re-clamps the selection against the shrunken view. -/
def toggle_exclude_selected (s : App) : App :=
  match s.selected_index with
  | none => s
  | some selected =>
    match (filtered_indices s).get? selected with
    | none => s
    | some index =>
      let name := index.name
      if s.excluded_indices.contains name then
        { s with excluded_indices := s.excluded_indices.erase name }
      else
        let s1 := { s with excluded_indices := name :: s.excluded_indices }
        let new_count := (filtered_indices s1).length
        if new_count = 0 then { s1 with selected_index := none }
        else if new_count ≤ selected then
          { s1 with selected_index := some (new_count - 1) }
        else s1

/-- Filter-editing keystroke as routed in main.rs: the input widget's text is
replaced and `FilterState::recompile` runs immediately (app/filter.rs); no
other application field — in particular not the selection — is touched. -/
def filter_edit (compile : String → Except String (Json → Bool))
    (t : String) (s : App) : App :=
  { s with filter := FilterState.recompile compile { s.filter with text := t } }

/-- Selection invariant of the spec (§3 `SelectionIndex`): `None` exactly when
the derived view is empty, otherwise a position strictly inside it. -/
def selectionInvariant (s : App) : Prop :=
  match s.selected_index with
  | none => filtered_indices s = []
  | some i => i < (filtered_indices s).length

/-- Per-resource rate closure inside stats.rs `fetch_index_rates`: look the
resource up in the previous snapshot, keep it only when elapsed > 0 and the
cumulative counter did not go backwards, then divide the guarded `u64`
difference by the elapsed seconds, defaulting to 0. -/
def instantRate (elapsed : ℚ) (psnap : List (String × IndexSnapshot))
    (nc : String × IndexSnapshot) : ℚ :=
  match psnap.lookup nc.1 with
  | some p =>
    if 0 < elapsed ∧ p.index_total ≤ nc.2.index_total then
      ((nc.2.index_total - p.index_total : Nat) : ℚ) / elapsed
    else 0
  | none => 0

/-- stats.rs `fetch_index_rates`, pure core: given the poll time, the stored
previous snapshot (time plus per-resource counters, as kept in
`EsClient::previous_snapshot`) and the freshly parsed current counters,
produce the instantaneous `IndexRate` list and the replacement snapshot.  The
`HashMap` of the source is modelled as an association list; iteration order is
irrelevant to the per-resource claims. -/
def fetch_index_rates (now : ℚ)
    (prev : Option (ℚ × List (String × IndexSnapshot)))
    (current : List (String × IndexSnapshot)) :
    List IndexRate × (ℚ × List (String × IndexSnapshot)) :=
  let rates : List IndexRate :=
    match prev with
    | some (pt, psnap) =>
      let elapsed := now - pt
      current.map (fun nc =>
        { name := nc.1
          doc_count := nc.2.doc_count
          rate_per_sec := instantRate elapsed psnap nc
          size_bytes := nc.2.size_bytes
          health := nc.2.health })
    | none =>
      current.map (fun nc =>
        { name := nc.1
          doc_count := nc.2.doc_count
          rate_per_sec := 0
          size_bytes := nc.2.size_bytes
          health := nc.2.health })
  (rates, (now, current))

/-- Instantaneous-rate formula exactly as the spec words it (§4.1 / claim C2):
`(current_total_ops - previous_total_ops) / elapsed_seconds` only if elapsed >
0 and current ≥ previous, else 0; 0 when no previous counter exists.  Kept
separate from `fetch_index_rates` (which uses the source's guarded `u64`
subtraction) so the two can be compared. -/
def specInstantRate (elapsed : ℚ) (prevTotal : Option Nat) (curTotal : Nat) :
    ℚ :=
  match prevTotal with
  | some p =>
    if 0 < elapsed ∧ p ≤ curTotal then ((curTotal : ℚ) - (p : ℚ)) / elapsed
    else 0
  | none => 0

/-- Sample resource A of the spec's worked example (1.0 ops/s). -/
def idxA : IndexRate := ⟨"A", 100, 1, 1024, "green"⟩

/-- Sample resource B of the spec's worked example (2.0 ops/s). -/
def idxB : IndexRate := ⟨"B", 200, 2, 2048, "green"⟩

/-- Sample resource C of the spec's worked example (3.0 ops/s). -/
def idxC : IndexRate := ⟨"C", 300, 3, 3072, "green"⟩

/-- Hidden system resource of the spec's worked example (10.0 ops/s). -/
def idxSys : IndexRate := ⟨".sys", 50, 10, 512, "green"⟩

/-- Freshly constructed app populated with the worked example's resources. -/
def appDemo : App := { App.new 5 10 with indices := [idxA, idxB, idxC, idxSys] }

/-- `appDemo` with the first view entry selected. -/
def appSel : App := { appDemo with selected_index := some 0 }

/-- Single-resource app with a live selection, used to exercise the
visibility toggle. -/
def appOne : App :=
  { App.new 5 10 with indices := [idxA], selected_index := some 0 }

/-- Query-language compiler stub over the app's value model that always
fails, standing in for ill-formed filter text. -/
def compileFailJson : String → Except String (Json → Bool) :=
  fun _ => Except.error "compile failed"

/-- Compiler stub over a unit value model that always fails. -/
def compileFailUnit : String → Except String (Unit → Bool) :=
  fun _ => Except.error "compile failed"

/-- Serialiser stub over a unit value model that always succeeds. -/
def serUnit : Unit → Except String Unit := fun _ => Except.ok ()

/-- Serialiser stub that always fails, standing in for an item the value
model cannot represent. -/
def serFailUnit : Unit → Except String Unit :=
  fun _ => Except.error "serialize failed"

/-- C5: when a poll is already in flight (`loading = true`), `start_fetch`
changes no field of the application state and spawns no second task. -/
theorem start_fetch_single_flight (now : ℚ) (s : App)
    (h : s.loading = true) : start_fetch now s = (s, false) := by
  simp [start_fetch, h]

/-- Witness for C5 at a concrete in-flight state. -/
theorem start_fetch_single_flight_witness :
    start_fetch 0 { App.new 5 10 with loading := true } =
      ({ App.new 5 10 with loading := true }, false) :=
  start_fetch_single_flight 0 { App.new 5 10 with loading := true } rfl

/-- C4: a delivered fetch failure records the error string and leaves the
resource list, health summary, rate history and smoothing history untouched,
ending the in-flight state; a disconnected mailbox does the same with the
fixed message "Fetch task disconnected". -/
theorem poll_failure_stale_data (now : ℚ) (s : App) (e : String) :
    ((poll_fetch_result now s (TryRecv.msg (Except.error e))).error = some e ∧
      (poll_fetch_result now s (TryRecv.msg (Except.error e))).indices =
        s.indices ∧
      (poll_fetch_result now s (TryRecv.msg (Except.error e))).cluster_health =
        s.cluster_health ∧
      (poll_fetch_result now s (TryRecv.msg (Except.error e))).rate_history =
        s.rate_history ∧
      (poll_fetch_result now s
          (TryRecv.msg (Except.error e))).index_rate_history =
        s.index_rate_history ∧
      (poll_fetch_result now s (TryRecv.msg (Except.error e))).loading =
        false) ∧
    ((poll_fetch_result now s TryRecv.disconnected).error =
        some "Fetch task disconnected" ∧
      (poll_fetch_result now s TryRecv.disconnected).indices = s.indices ∧
      (poll_fetch_result now s TryRecv.disconnected).cluster_health =
        s.cluster_health ∧
      (poll_fetch_result now s TryRecv.disconnected).rate_history =
        s.rate_history ∧
      (poll_fetch_result now s TryRecv.disconnected).index_rate_history =
        s.index_rate_history ∧
      (poll_fetch_result now s TryRecv.disconnected).loading = false) :=
  ⟨⟨rfl, rfl, rfl, rfl, rfl, rfl⟩, ⟨rfl, rfl, rfl, rfl, rfl, rfl⟩⟩

/-- C6: recompiling on empty text clears predicate and error; recompiling on
text the collaborator rejects clears the predicate and stores the error; in
both cases the absent predicate makes `is_match` true on every item. -/
theorem filter_match_all_on_empty_or_error {J T : Type}
    (compile : String → Except String (J → Bool)) (ser : T → Except String J)
    (s : FilterState J) (item : T) :
    (s.text = "" →
      (s.recompile compile).compiled = none ∧
        (s.recompile compile).error = none ∧
        (s.recompile compile).is_match ser item = true) ∧
    (∀ e, s.text ≠ "" → compile s.text = Except.error e →
      (s.recompile compile).compiled = none ∧
        (s.recompile compile).error = some e ∧
        (s.recompile compile).is_match ser item = true) := by
  constructor
  · intro h
    simp [FilterState.recompile, h, FilterState.is_match]
  · intro e h hc
    simp [FilterState.recompile, h, hc, FilterState.is_match]

/-- Witness for C6: failed compile on nonempty text and empty-text recompile,
both matching a concrete item. -/
theorem filter_match_all_witness :
    ((FilterState.mk "x" none none).recompile compileFailUnit).is_match
        serUnit () = true ∧
      ((FilterState.mk "" none none).recompile compileFailUnit).error =
        none :=
  ⟨((filter_match_all_on_empty_or_error compileFailUnit serUnit
      (FilterState.mk "x" none none) ()).2 "compile failed" (by decide)
      rfl).2.2,
    ((filter_match_all_on_empty_or_error compileFailUnit serUnit
      (FilterState.mk "" none none) ()).1 rfl).2.1⟩

/-- C10: an item whose serialisation to the value model fails is matched
(`is_match` true) regardless of any cached predicate; the error is swallowed. -/
theorem is_match_true_on_serialize_error {J T : Type}
    (ser : T → Except String J) (s : FilterState J) (item : T) (m : String)
    (h : ser item = Except.error m) : s.is_match ser item = true := by
  unfold FilterState.is_match
  cases s.compiled with
  | none => rfl
  | some f => simp [h]

/-- Witness for C10: a rejecting predicate is cached, yet the item whose
serialisation fails is matched. -/
theorem is_match_serialize_error_witness :
    (FilterState.mk "t" none (some (fun _ : Unit => false))).is_match
      serFailUnit () = true :=
  is_match_true_on_serialize_error serFailUnit
    (FilterState.mk "t" none (some (fun _ : Unit => false))) ()
    "serialize failed" rfl

/-- Counterexample to C9: the construction-supplied interval is stored
without clamping, so `App::new` with 0 seconds yields an interval below the
1-second minimum. -/
theorem refresh_not_clamped_at_construction :
    ¬ (MIN_REFRESH_SECS ≤ (App.new 0 10).refresh_secs ∧
        (App.new 0 10).refresh_secs ≤ MAX_REFRESH_SECS) := by
  decide

/-- C9 amended: construction stores the supplied interval unclamped, and the
increase/decrease operations keep an interval that is within the 1s–60s
bounds inside them (stopping at 1s and 60s respectively). -/
theorem refresh_interval_ops_bounded (rs n : Nat) (s : App)
    (h1 : MIN_REFRESH_SECS ≤ s.refresh_secs)
    (h2 : s.refresh_secs ≤ MAX_REFRESH_SECS) :
    (App.new rs n).refresh_secs = rs ∧
    (MIN_REFRESH_SECS ≤ (increase_refresh_rate s).refresh_secs ∧
      (increase_refresh_rate s).refresh_secs ≤ MAX_REFRESH_SECS) ∧
    (MIN_REFRESH_SECS ≤ (decrease_refresh_rate s).refresh_secs ∧
      (decrease_refresh_rate s).refresh_secs ≤ MAX_REFRESH_SECS) := by
  simp only [increase_refresh_rate, decrease_refresh_rate, MIN_REFRESH_SECS,
    MAX_REFRESH_SECS] at h1 h2 ⊢
  refine ⟨rfl, ?_, ?_⟩ <;> split <;> first | omega | (dsimp only; omega)

/-- Witness for C9's amended statement at a concrete in-range interval. -/
theorem refresh_interval_ops_bounded_witness :
    (App.new 5 10).refresh_secs = 5 ∧
    (MIN_REFRESH_SECS ≤ (increase_refresh_rate (App.new 5 10)).refresh_secs ∧
      (increase_refresh_rate (App.new 5 10)).refresh_secs ≤
        MAX_REFRESH_SECS) ∧
    (MIN_REFRESH_SECS ≤ (decrease_refresh_rate (App.new 5 10)).refresh_secs ∧
      (decrease_refresh_rate (App.new 5 10)).refresh_secs ≤
        MAX_REFRESH_SECS) :=
  refresh_interval_ops_bounded 5 10 (App.new 5 10) (by decide) (by decide)

/-- C7: the cluster-wide total sums `rate_per_sec` over exactly the view
(the three inclusion tests), and the worked example evaluates to 6, 16 and 5
ops/s under the default, system-visible, and A-excluded configurations. -/
theorem total_rate_view_composition (s : App) (i : IndexRate) :
    (total_cluster_rate s =
      ((filtered_indices s).map (fun j => j.rate_per_sec)).sum) ∧
    (includeIndex s i =
      (!(s.excluded_indices.contains i.name) &&
        ((s.show_system_indices || !(startsWithDot i.name)) &&
          s.filter.is_match serializeIndex i))) ∧
    total_cluster_rate appDemo = 6 ∧
    total_cluster_rate { appDemo with show_system_indices := true } = 16 ∧
    total_cluster_rate { appDemo with excluded_indices := ["A"] } = 5 := by
  refine ⟨rfl, ?_, ?_, ?_, ?_⟩
  · unfold includeIndex
    cases hc : s.excluded_indices.contains i.name <;>
      cases hs : s.show_system_indices <;>
        cases hd : startsWithDot i.name <;> simp [hc, hs, hd]
  · have h : List.filter (includeIndex appDemo) appDemo.indices =
        [idxA, idxB, idxC] := by decide
    rw [total_cluster_rate, h]
    norm_num [idxA, idxB, idxC]
  · have h : List.filter
        (includeIndex { appDemo with show_system_indices := true })
        ({ appDemo with show_system_indices := true } : App).indices =
        [idxA, idxB, idxC, idxSys] := by decide
    rw [total_cluster_rate, h]
    norm_num [idxA, idxB, idxC, idxSys]
  · have h : List.filter
        (includeIndex { appDemo with excluded_indices := ["A"] })
        ({ appDemo with excluded_indices := ["A"] } : App).indices =
        [idxB, idxC] := by decide
    rw [total_cluster_rate, h]
    norm_num [idxB, idxC]

/-- C8: movement by a signed delta clamps an existing selection to
`[0, count-1]`; from no selection a positive delta lands on index 0 and a
non-positive delta on the last index; on an empty view the selection becomes
`None`. -/
theorem move_selection_clamps (s : App) (delta : Int) :
    (((filtered_indices s).length = 0 →
      (move_selection s delta).selected_index = none)) ∧
    (∀ current, s.selected_index = some current →
      0 < (filtered_indices s).length →
      (move_selection s delta).selected_index =
        some (min (max ((current : Int) + delta) 0)
          (((filtered_indices s).length : Int) - 1)).toNat) ∧
    (s.selected_index = none → 0 < (filtered_indices s).length → 0 < delta →
      (move_selection s delta).selected_index = some 0) ∧
    (s.selected_index = none → 0 < (filtered_indices s).length → delta ≤ 0 →
      (move_selection s delta).selected_index =
        some ((filtered_indices s).length - 1)) := by
  unfold move_selection
  refine ⟨?_, ?_, ?_, ?_⟩
  · intro h
    simp [h]
  · intro current hc hn
    rw [hc]
    have hne : ¬ (filtered_indices s).length = 0 := by omega
    simp only [hne, if_false]
    have hcast : (((filtered_indices s).length - 1 : Nat) : Int) =
        ((filtered_indices s).length : Int) - 1 := by
      omega
    simp [hcast]
  · intro hc hn hd
    rw [hc]
    have hne : ¬ (filtered_indices s).length = 0 := by omega
    simp only [hne, if_false]
    simp [hd]
  · intro hc hn hd
    rw [hc]
    have hne : ¬ (filtered_indices s).length = 0 := by omega
    have hd' : ¬ 0 < delta := by omega
    simp [hne, hd', Int.toNat_natCast]

/-- Witness for C8 at the populated demo app: moving down by 5 from index 0
clamps to the last of the three visible entries. -/
theorem move_selection_clamps_witness :
    (move_selection appSel 5).selected_index =
      some (min (max ((0 : Int) + 5) 0)
        (((filtered_indices appSel).length : Int) - 1)).toNat :=
  (move_selection_clamps appSel 5).2.1 0 rfl (by decide)

/-- Pointwise agreement between the source's guarded `u64`-subtraction rate
and the spec's rational-subtraction formula. -/
theorem instantRate_eq_spec (elapsed : ℚ)
    (psnap : List (String × IndexSnapshot)) (nc : String × IndexSnapshot) :
    instantRate elapsed psnap nc =
      specInstantRate elapsed
        ((psnap.lookup nc.1).map (fun p => p.index_total))
        nc.2.index_total := by
  unfold instantRate specInstantRate
  cases hp : List.lookup nc.1 psnap with
  | none => rfl
  | some p =>
    simp only [Option.map_some']
    split
    · next h => rw [Nat.cast_sub h.2]
    · rfl

/-- C2: every produced rate follows the spec's instantaneous-rate formula
(delta over elapsed when elapsed > 0 and the counter did not reset, else 0;
0 when the resource is absent from the previous snapshot), all rates are 0 on
the very first poll, and the worked example gives 10 ops/s for 100→150 over
5s and 0 ops/s for the 100→90 counter reset. -/
theorem instant_rate_formula (now pt : ℚ)
    (psnap current : List (String × IndexSnapshot)) (i : Nat) :
    ((fetch_index_rates now (some (pt, psnap)) current).1.get? i =
      (current.get? i).map (fun nc =>
        { name := nc.1
          doc_count := nc.2.doc_count
          rate_per_sec := specInstantRate (now - pt)
            ((psnap.lookup nc.1).map (fun p => p.index_total))
            nc.2.index_total
          size_bytes := nc.2.size_bytes
          health := nc.2.health })) ∧
    ((fetch_index_rates now none current).1.get? i =
      (current.get? i).map (fun nc =>
        { name := nc.1
          doc_count := nc.2.doc_count
          rate_per_sec := 0
          size_bytes := nc.2.size_bytes
          health := nc.2.health })) ∧
    ((fetch_index_rates 5 (some (0, [("idx", ⟨7, 100, 9, "green"⟩)]))
        [("idx", ⟨7, 150, 9, "green"⟩)]).1.map (fun r => r.rate_per_sec) =
      [10]) ∧
    ((fetch_index_rates 5 (some (0, [("idx", ⟨7, 100, 9, "green"⟩)]))
        [("idx", ⟨7, 90, 9, "green"⟩)]).1.map (fun r => r.rate_per_sec) =
      [0]) := by
  refine ⟨?_, ?_, ?_, ?_⟩
  · unfold fetch_index_rates
    simp only [instantRate_eq_spec]
    rw [List.get?_map]
  · unfold fetch_index_rates
    rw [List.get?_map]
  · have h : List.lookup "idx"
        [("idx", (⟨7, 100, 9, "green"⟩ : IndexSnapshot))] =
        some ⟨7, 100, 9, "green"⟩ := rfl
    simp only [fetch_index_rates, instantRate, List.map, h]
    norm_num
  · have h : List.lookup "idx"
        [("idx", (⟨7, 100, 9, "green"⟩ : IndexSnapshot))] =
        some ⟨7, 100, 9, "green"⟩ := rfl
    simp only [fetch_index_rates, instantRate, List.map, h]
    norm_num

/-- Folding window pushes over a whole sequence, starting empty, keeps
exactly the suffix of the last at-most-`N` samples. -/
theorem foldl_pushRate (N : Nat) (hN : 1 ≤ N) (xs : List ℚ) :
    xs.foldl (pushRate N) [] = xs.drop (xs.length - N) := by
  induction xs using List.reverseRecOn with
  | nil => simp
  | append_singleton xs x ih =>
    rw [List.foldl_append, ih]
    simp only [List.foldl_cons, List.foldl_nil]
    by_cases h : N ≤ xs.length
    · have hlen : (xs.drop (xs.length - N)).length = N := by
        rw [List.length_drop]; omega
      unfold pushRate
      rw [hlen, if_pos (Nat.le_refl N), List.tail_drop]
      have hle : (xs ++ [x]).length - N = (xs.length - N) + 1 := by
        rw [List.length_append]; simp; omega
      rw [hle, List.drop_append_of_le_length (by omega)]
    · have hlen : ¬ N ≤ (xs.drop (xs.length - N)).length := by
        rw [List.length_drop]; omega
      unfold pushRate
      rw [if_neg hlen]
      have h0 : xs.length - N = 0 := by omega
      have h1 : (xs ++ [x]).length - N = 0 := by
        rw [List.length_append]; simp; omega
      rw [h0, h1, List.drop_zero, List.drop_zero]

/-- Lookup after insertion returns the inserted window. -/
theorem histLookup_insert (h : RateHistMap) (n : String) (w : List ℚ) :
    histLookup (histInsert h n w) n = w := by
  induction h with
  | nil => simp [histInsert, histLookup, List.lookup]
  | cons kv t ih =>
    obtain ⟨k, v⟩ := kv
    unfold histInsert
    by_cases hk : k = n
    · rw [if_pos hk]
      simp [histLookup, List.lookup]
    · rw [if_neg hk]
      have hbeq : (n == k) = false :=
        beq_eq_false_iff_ne.mpr (fun hnk => hk hnk.symm)
      unfold histLookup List.lookup
      rw [hbeq]
      exact ih

/-- Feeding one resource's polls through the per-index update step evolves
exactly that resource's window by `pushRate`. -/
theorem histLookup_fold (N : Nat) (i0 : IndexRate) (xs : List ℚ)
    (h : RateHistMap) :
    histLookup
      (xs.foldl (fun h y => (updateOne N h { i0 with rate_per_sec := y }).1)
        h) i0.name =
      xs.foldl (pushRate N) (histLookup h i0.name) := by
  induction xs generalizing h with
  | nil => rfl
  | cons y ys ih =>
    simp only [List.foldl_cons]
    rw [ih]
    congr 1
    exact histLookup_insert h i0.name _

/-- Displayed rate produced by the per-index smoothing step: the mean of the
freshly pushed window. -/
theorem updateOne_rate (N : Nat) (h : RateHistMap) (i : IndexRate) :
    (updateOne N h i).2.rate_per_sec =
      (pushRate N (histLookup h i.name) i.rate_per_sec).sum /
        ((pushRate N (histLookup h i.name) i.rate_per_sec).length : ℚ) := rfl

/-- C3: after pushing any non-negative rate sequence for one resource,
poll by poll, through the per-index smoothing step, the window holds the last
`min N samples_seen` values in insertion order and the displayed rate is
their arithmetic mean. -/
theorem smoothing_window_mean (N : Nat) (hN : 1 ≤ N) (i0 : IndexRate)
    (xs : List ℚ) (x : ℚ) (hnn : ∀ y ∈ xs ++ [x], 0 ≤ y) :
    ((xs ++ [x]).foldl (pushRate N) [] =
      (xs ++ [x]).drop ((xs ++ [x]).length - N)) ∧
    ((xs ++ [x]).foldl (pushRate N) []).length = min N (xs.length + 1) ∧
    (updateOne N
        (xs.foldl (fun h y => (updateOne N h { i0 with rate_per_sec := y }).1)
          []) { i0 with rate_per_sec := x }).2.rate_per_sec =
      ((xs ++ [x]).foldl (pushRate N) []).sum /
        ((min N (xs.length + 1) : Nat) : ℚ) := by
  have c1 := foldl_pushRate N hN (xs ++ [x])
  have c2 : ((xs ++ [x]).foldl (pushRate N) []).length =
      min N (xs.length + 1) := by
    rw [c1, List.length_drop, List.length_append]
    simp only [List.length_singleton]
    omega
  refine ⟨c1, c2, ?_⟩
  have hw : pushRate N
      (histLookup
        (xs.foldl (fun h y => (updateOne N h { i0 with rate_per_sec := y }).1)
          []) i0.name) x =
      (xs ++ [x]).foldl (pushRate N) [] := by
    rw [histLookup_fold, List.foldl_append]
    rfl
  rw [updateOne_rate]
  dsimp only
  rw [hw, c2]

/-- Witness for C3: capacity 2, rates 1 then 2 then 3; the displayed rate
after the third push is the mean of the last two samples. -/
theorem smoothing_window_mean_witness :
    (updateOne 2
        ([(1 : ℚ), 2].foldl
          (fun h y => (updateOne 2 h { idxA with rate_per_sec := y }).1) [])
        { idxA with rate_per_sec := 3 }).2.rate_per_sec =
      (([(1 : ℚ), 2] ++ [3]).foldl (pushRate 2) []).sum /
        ((min 2 (([(1 : ℚ), 2] : List ℚ).length + 1) : Nat) : ℚ) :=
  (smoothing_window_mean 2 (by decide) idxA [1, 2] 3
    (by intro y hy; fin_cases hy <;> norm_num)).2.2

/-- Counterexample to C1: on a state whose single visible resource is
selected, toggling system-resource visibility leaves the derived view
non-empty yet resets the selection to `None`, refuting the claimed
equivalence between `selection.is_none()` and view emptiness (and the
"leaves it unchanged otherwise" re-clamp rule). -/
theorem selection_invariant_cex :
    ¬ (((toggle_system_indices appOne).selected_index = none) ↔
        (filtered_indices (toggle_system_indices appOne) = [])) := by
  decide

/-- Selected view entry is never an excluded name (the view filters
exclusions out), so the exclusion toggle always takes its insert branch. -/
theorem not_excluded_of_view_entry (s : App) (sel : Nat) (idx : IndexRate)
    (hget : (filtered_indices s).get? sel = some idx) :
    s.excluded_indices.contains idx.name = false := by
  have hmem : idx ∈ filtered_indices s := List.get?_mem hget
  have hinc : includeIndex s idx = true := (List.mem_filter.mp hmem).2
  cases hc : s.excluded_indices.contains idx.name with
  | false => rfl
  | true =>
    unfold includeIndex at hinc
    rw [if_pos hc] at hinc
    simp at hinc

/-- C1 amended: the exclusion toggle preserves the selection invariant and
re-clamps exactly as claimed (view empty → `None`; old index out of range →
new last index; otherwise unchanged), but toggling system-resource visibility
unconditionally resets the selection to `None`, and filter edits leave the
selection index untouched without re-clamping it. -/
theorem selection_reclamp (s : App)
    (compile : String → Except String (Json → Bool)) (t : String) :
    ((toggle_system_indices s).selected_index = none) ∧
    ((filter_edit compile t s).selected_index = s.selected_index) ∧
    (selectionInvariant s → selectionInvariant (toggle_exclude_selected s)) ∧
    (∀ sel idx, s.selected_index = some sel →
      (filtered_indices s).get? sel = some idx →
      (((filtered_indices
            { s with selected_index := some sel, excluded_indices :=
                idx.name :: s.excluded_indices }).length = 0 →
          (toggle_exclude_selected s).selected_index = none) ∧
        (0 < (filtered_indices
            { s with selected_index := some sel, excluded_indices :=
                idx.name :: s.excluded_indices }).length →
          (filtered_indices
            { s with selected_index := some sel, excluded_indices :=
                idx.name :: s.excluded_indices }).length ≤ sel →
          (toggle_exclude_selected s).selected_index =
            some ((filtered_indices
              { s with selected_index := some sel, excluded_indices :=
                  idx.name :: s.excluded_indices }).length - 1)) ∧
        (sel < (filtered_indices
            { s with selected_index := some sel, excluded_indices :=
                idx.name :: s.excluded_indices }).length →
          (toggle_exclude_selected s).selected_index = some sel))) := by
  refine ⟨rfl, rfl, ?_, ?_⟩
  · intro hinv
    cases hsel : s.selected_index with
    | none =>
      have hemp : filtered_indices s = [] := by
        unfold selectionInvariant at hinv
        rw [hsel] at hinv
        exact hinv
      have ht : toggle_exclude_selected s = s := by
        unfold toggle_exclude_selected
        rw [hsel]
      rw [ht]
      exact hinv
    | some sel =>
      have hlt : sel < (filtered_indices s).length := by
        unfold selectionInvariant at hinv
        rw [hsel] at hinv
        exact hinv
      have hget := List.get?_eq_get hlt
      have hcont := not_excluded_of_view_entry s sel
        ((filtered_indices s).get ⟨sel, hlt⟩) hget
      unfold toggle_exclude_selected
      rw [hsel]
      simp only [hget, hcont, Bool.false_eq_true, if_false]
      by_cases h0 : (filtered_indices
          { s with selected_index := some sel, excluded_indices :=
              ((filtered_indices s).get ⟨sel, hlt⟩).name ::
                s.excluded_indices }).length = 0
      · rw [if_pos h0]
        unfold selectionInvariant
        exact List.length_eq_zero.mp h0
      · by_cases h1 : (filtered_indices
            { s with selected_index := some sel, excluded_indices :=
                ((filtered_indices s).get ⟨sel, hlt⟩).name ::
                  s.excluded_indices }).length ≤ sel
        · rw [if_neg h0, if_pos h1]
          unfold selectionInvariant
          show (filtered_indices
            { s with selected_index := some sel, excluded_indices :=
                ((filtered_indices s).get ⟨sel, hlt⟩).name ::
                  s.excluded_indices }).length - 1 <
            (filtered_indices
              { s with selected_index := some sel, excluded_indices :=
                  ((filtered_indices s).get ⟨sel, hlt⟩).name ::
                    s.excluded_indices }).length
          omega
        · rw [if_neg h0, if_neg h1]
          unfold selectionInvariant
          show sel < (filtered_indices
            { s with selected_index := some sel, excluded_indices :=
                ((filtered_indices s).get ⟨sel, hlt⟩).name ::
                  s.excluded_indices }).length
          omega
  · intro sel idx hsel hget
    have hcont := not_excluded_of_view_entry s sel idx hget
    unfold toggle_exclude_selected
    rw [hsel]
    simp only [hget, hcont, Bool.false_eq_true, if_false]
    refine ⟨?_, ?_, ?_⟩
    · intro h0
      rw [if_pos h0]
    · intro h1 h2
      rw [if_neg (by omega), if_pos h2]
    · intro h3
      rw [if_neg (by omega), if_neg (by omega)]

/-- Witness for C1's amended statement: excluding the selected first entry of
the populated demo app preserves the selection invariant, and the visibility
toggle on the same state resets the selection to `None`. -/
theorem selection_reclamp_witness :
    selectionInvariant (toggle_exclude_selected appSel) ∧
    (toggle_system_indices appSel).selected_index = none :=
  ⟨(selection_reclamp appSel compileFailJson "x").2.2.1
      (by show 0 < (filtered_indices appSel).length; decide),
    (selection_reclamp appSel compileFailJson "x").1⟩

end EstiCli
